import Mathlib

/-!
Shallow embedding of `src/contracts/CertificateVerification.sol`
(Solidity ^0.8.19) and of the verification-outcome selection of
`src/api/routes/certificates.js` (GET /api/certificates/verify/:hash).

Modelling conventions:
- `address` and `string` are Lean `String`; equality on addresses is exact
  match, as in the EVM.
- Solidity mappings are total functions with the type's zero value as
  default (`Certificate` with all-empty fields, `0` for `uint256`), exactly
  as in the EVM storage model.
- `uint256` is `Nat`.  Solidity 0.8 arithmetic is checked (it reverts, it
  never wraps), and the only arithmetic in the contract is
  `nextCertificateId++` (reverts only at 2^256 - 1) and
  `nextCertificateId - 1` (underflows only when `nextCertificateId = 0`,
  which never holds since the counter starts at 1 and only increments), so
  `Nat` arithmetic agrees with the contract on all states considered here.
- A reverting call (`require` failure) is `Except.error e`: the transaction
  rolls back, so no state is returned for a failed call.
- `block.timestamp` is an explicit `now : Nat` argument.
- `msg.sender` is an explicit `sender : String` argument.
- `bytes(s).length > 0` holds iff the string is non-empty, embedded as
  `s ≠ ""`.
-/

/-- The `Certificate` struct of the contract. -/
structure Certificate where
  participantName : String
  eventName : String
  certificateHash : String
  timestamp : Nat
  isValid : Bool
deriving Repr, DecidableEq

/-- Solidity zero value of `Certificate`: what `certificates[id]` reads
before any write. -/
def Certificate.zero : Certificate :=
  { participantName := "", eventName := "", certificateHash := "",
    timestamp := 0, isValid := false }

/-- The contract's storage. -/
structure ContractState where
  certificates : Nat → Certificate
  hashToCertificateId : String → Nat
  nextCertificateId : Nat
  owner : String

/-- State after the constructor runs, deployed by `deployer`. -/
def initialState (deployer : String) : ContractState :=
  { certificates := fun _ => Certificate.zero
    hashToCertificateId := fun _ => 0
    nextCertificateId := 1
    owner := deployer }

/-- The contract's revert reasons, one constructor per `require` message.
The spec's error taxonomy maps onto them: `Unauthorized` ↔
`UnauthorizedError`; the three `Empty*` constructors ↔ `ValidationError`;
`DuplicateHash` ↔ `DuplicateHashError`; `InvalidCertificateId` ↔
`NotFoundError`; `AlreadyRevoked` ↔ `AlreadyRevokedError`. -/
inductive ContractError where
  /-- "Only owner can call this function" -/
  | Unauthorized
  /-- "Participant name cannot be empty" -/
  | EmptyParticipantName
  /-- "Event name cannot be empty" -/
  | EmptyEventName
  /-- "Certificate hash cannot be empty" -/
  | EmptyCertificateHash
  /-- "Certificate with this hash already exists" -/
  | DuplicateHash
  /-- "Invalid certificate ID" -/
  | InvalidCertificateId
  /-- "Certificate is already revoked" -/
  | AlreadyRevoked
deriving Repr, DecidableEq

/-- Does the revert reason fall under the spec's `ValidationError`
(missing/empty required field)? -/
def ContractError.isValidationError : ContractError → Bool
  | .EmptyParticipantName => true
  | .EmptyEventName => true
  | .EmptyCertificateHash => true
  | _ => false

/-- `issueCertificate` (contract lines 48–74), with the `onlyOwner`
modifier inlined first, as the EVM runs it. -/
def issueCertificate (s : ContractState) (sender : String) (now : Nat)
    (participantName eventName certificateHash : String) :
    Except ContractError (Nat × ContractState) :=
  if sender ≠ s.owner then .error .Unauthorized
  else if participantName = "" then .error .EmptyParticipantName
  else if eventName = "" then .error .EmptyEventName
  else if certificateHash = "" then .error .EmptyCertificateHash
  else if s.hashToCertificateId certificateHash ≠ 0 then .error .DuplicateHash
  else
    let certificateId := s.nextCertificateId
    .ok (certificateId,
      { s with
        certificates := fun i =>
          if i = certificateId then
            { participantName := participantName
              eventName := eventName
              certificateHash := certificateHash
              timestamp := now
              isValid := true }
          else s.certificates i
        hashToCertificateId := fun h =>
          if h = certificateHash then certificateId
          else s.hashToCertificateId h
        nextCertificateId := s.nextCertificateId + 1 })

/-- Return value of `verifyCertificateByHash`. -/
structure HashVerifyResult where
  certExists : Bool
  certificateId : Nat
  participantName : String
  eventName : String
  timestamp : Nat
  isValid : Bool
deriving Repr, DecidableEq

/-- `verifyCertificateByHash` (contract lines 77–101): a view function
with no `require`, hence a total function. -/
def verifyCertificateByHash (s : ContractState) (certificateHash : String) :
    HashVerifyResult :=
  let certificateId := s.hashToCertificateId certificateHash
  if certificateId = 0 then
    { certExists := false, certificateId := 0, participantName := ""
      eventName := "", timestamp := 0, isValid := false }
  else
    let cert := s.certificates certificateId
    { certExists := true, certificateId := certificateId
      participantName := cert.participantName
      eventName := cert.eventName
      timestamp := cert.timestamp
      isValid := cert.isValid }

/-- Return value of `verifyCertificateById`. -/
structure IdVerifyResult where
  certExists : Bool
  participantName : String
  eventName : String
  certificateHash : String
  timestamp : Nat
  isValid : Bool
deriving Repr, DecidableEq

/-- `verifyCertificateById` (contract lines 104–126): a view function
with no `require`, hence a total function. -/
def verifyCertificateById (s : ContractState) (certificateId : Nat) :
    IdVerifyResult :=
  if certificateId = 0 ∨ certificateId ≥ s.nextCertificateId then
    { certExists := false, participantName := "", eventName := ""
      certificateHash := "", timestamp := 0, isValid := false }
  else
    let cert := s.certificates certificateId
    { certExists := true
      participantName := cert.participantName
      eventName := cert.eventName
      certificateHash := cert.certificateHash
      timestamp := cert.timestamp
      isValid := cert.isValid }

/-- `revokeCertificate` (contract lines 129–136), `onlyOwner` inlined
first. -/
def revokeCertificate (s : ContractState) (sender : String)
    (certificateId : Nat) : Except ContractError ContractState :=
  if sender ≠ s.owner then .error .Unauthorized
  else if ¬(certificateId > 0 ∧ certificateId < s.nextCertificateId) then
    .error .InvalidCertificateId
  else if ¬(s.certificates certificateId).isValid then .error .AlreadyRevoked
  else
    .ok { s with
      certificates := fun i =>
        if i = certificateId then
          { s.certificates certificateId with isValid := false }
        else s.certificates i }

/-- `getTotalCertificates` (contract lines 139–141). -/
def getTotalCertificates (s : ContractState) : Nat :=
  s.nextCertificateId - 1

/-- Resulting state of an `issueCertificate` transaction: the new state on
success, the unchanged pre-state on revert (EVM rollback). -/
def applyIssue (s : ContractState) (sender : String) (now : Nat)
    (participantName eventName certificateHash : String) : ContractState :=
  match issueCertificate s sender now participantName eventName certificateHash with
  | .ok (_, s') => s'
  | .error _ => s

/-- Resulting state of a `revokeCertificate` transaction: the new state on
success, the unchanged pre-state on revert (EVM rollback). -/
def applyRevoke (s : ContractState) (sender : String)
    (certificateId : Nat) : ContractState :=
  match revokeCertificate s sender certificateId with
  | .ok s' => s'
  | .error _ => s

/-- A transaction against the contract's two mutating entry points. -/
inductive Op where
  | issue (sender : String) (now : Nat)
      (participantName eventName certificateHash : String)
  | revoke (sender : String) (certificateId : Nat)
deriving Repr, DecidableEq

/-- Resulting state of one transaction (reverted transactions leave the
state unchanged). -/
def applyOp (s : ContractState) : Op → ContractState
  | .issue sender now p e h => applyIssue s sender now p e h
  | .revoke sender i => applyRevoke s sender i

/-- State after a sequence of transactions. -/
def runOps (s : ContractState) : List Op → ContractState
  | [] => s
  | op :: rest => runOps (applyOp s op) rest

/-- Does this transaction succeed (not revert) in state `s`? -/
def opSucceeds (s : ContractState) : Op → Bool
  | .issue sender now p e h => (issueCertificate s sender now p e h).isOk
  | .revoke sender i => (revokeCertificate s sender i).isOk

/-- Number of successful `issueCertificate` calls in a transaction
sequence run from `s`. -/
def countSuccessfulIssues (s : ContractState) : List Op → Nat
  | [] => 0
  | op :: rest =>
      (match op with
        | .issue sender now p e h =>
            if (issueCertificate s sender now p e h).isOk then 1 else 0
        | .revoke _ _ => 0)
      + countSuccessfulIssues (applyOp s op) rest

/-- One successful (non-reverting) state-changing transaction. -/
inductive Step : ContractState → ContractState → Prop where
  | issue {s : ContractState} {sender : String} {now : Nat}
      {p e h : String} {id : Nat} {s' : ContractState} :
      issueCertificate s sender now p e h = .ok (id, s') → Step s s'
  | revoke {s : ContractState} {sender : String} {i : Nat}
      {s' : ContractState} :
      revokeCertificate s sender i = .ok s' → Step s s'

/-- Zero or more successful transactions (reverted transactions leave the
state unchanged, so they need no step). -/
inductive Steps : ContractState → ContractState → Prop where
  | refl (s : ContractState) : Steps s s
  | tail {s t u : ContractState} : Steps s t → Step t u → Steps s u

/-- States reachable from deployment by any sequence of transactions. -/
def Reachable (s : ContractState) : Prop :=
  ∃ deployer : String, Steps (initialState deployer) s

/-- The three verification outcomes the API reports. -/
inductive VerifyOutcome where
  | notFound
  | revoked
  | valid
deriving Repr, DecidableEq

/-- Outcome selection of the GET /api/certificates/verify/:hash handler
(`src/api/routes/certificates.js` lines 164–179): `result.exists`
selects found-vs-not-found, then `result.isValid` selects
valid-vs-revoked. -/
def verifyOutcomeByHash (s : ContractState) (hash : String) : VerifyOutcome :=
  let result := verifyCertificateByHash s hash
  if result.certExists then
    if result.isValid then .valid else .revoked
  else .notFound

/-! ## Helper lemmas -/

theorem issueCertificate_eq_ok (s : ContractState) (sender : String) (now : Nat)
    (p e h : String) (hs : sender = s.owner) (hp : p ≠ "") (he : e ≠ "")
    (hh : h ≠ "") (hfresh : s.hashToCertificateId h = 0) :
    issueCertificate s sender now p e h = .ok (s.nextCertificateId,
      { s with
        certificates := fun i =>
          if i = s.nextCertificateId then
            { participantName := p, eventName := e, certificateHash := h
              timestamp := now, isValid := true }
          else s.certificates i
        hashToCertificateId := fun x =>
          if x = h then s.nextCertificateId else s.hashToCertificateId x
        nextCertificateId := s.nextCertificateId + 1 }) := by
  simp [issueCertificate, hs, hp, he, hh, hfresh]

theorem issueCertificate_ok_inv {s : ContractState} {sender : String} {now : Nat}
    {p e h : String} {id : Nat} {s' : ContractState}
    (H : issueCertificate s sender now p e h = .ok (id, s')) :
    sender = s.owner ∧ p ≠ "" ∧ e ≠ "" ∧ h ≠ "" ∧
    s.hashToCertificateId h = 0 ∧ id = s.nextCertificateId ∧
    s' = { s with
        certificates := fun i =>
          if i = s.nextCertificateId then
            { participantName := p, eventName := e, certificateHash := h
              timestamp := now, isValid := true }
          else s.certificates i
        hashToCertificateId := fun x =>
          if x = h then s.nextCertificateId else s.hashToCertificateId x
        nextCertificateId := s.nextCertificateId + 1 } := by
  unfold issueCertificate at H
  split at H
  · exact Except.noConfusion H
  · split at H
    · exact Except.noConfusion H
    · split at H
      · exact Except.noConfusion H
      · split at H
        · exact Except.noConfusion H
        · split at H
          · exact Except.noConfusion H
          · next h1 h2 h3 h4 h5 =>
              simp only [Except.ok.injEq, Prod.mk.injEq] at H
              exact ⟨not_not.mp h1, h2, h3, h4, not_not.mp h5, H.1.symm, H.2.symm⟩

theorem revokeCertificate_eq_ok (s : ContractState) (sender : String)
    (i : Nat) (hs : sender = s.owner) (h1 : 0 < i)
    (h2 : i < s.nextCertificateId) (hv : (s.certificates i).isValid = true) :
    revokeCertificate s sender i = .ok
      { s with
        certificates := fun j =>
          if j = i then { s.certificates i with isValid := false }
          else s.certificates j } := by
  simp [revokeCertificate, hs, h1, h2, hv]

theorem revokeCertificate_ok_inv {s : ContractState} {sender : String}
    {i : Nat} {s' : ContractState}
    (H : revokeCertificate s sender i = .ok s') :
    sender = s.owner ∧ 0 < i ∧ i < s.nextCertificateId ∧
    (s.certificates i).isValid = true ∧
    s' = { s with
        certificates := fun j =>
          if j = i then { s.certificates i with isValid := false }
          else s.certificates j } := by
  unfold revokeCertificate at H
  split at H
  · exact Except.noConfusion H
  · split at H
    · exact Except.noConfusion H
    · split at H
      · exact Except.noConfusion H
      · next h1 h2 h3 =>
          simp only [Except.ok.injEq] at H
          have h2' := not_not.mp h2
          exact ⟨not_not.mp h1, h2'.1, h2'.2, not_not.mp h3, H.symm⟩

theorem applyIssue_of_error {s : ContractState} {sender : String} {now : Nat}
    {p e h : String} {err : ContractError}
    (H : issueCertificate s sender now p e h = .error err) :
    applyIssue s sender now p e h = s := by
  simp [applyIssue, H]

theorem applyRevoke_of_error {s : ContractState} {sender : String}
    {i : Nat} {err : ContractError}
    (H : revokeCertificate s sender i = .error err) :
    applyRevoke s sender i = s := by
  simp [applyRevoke, H]

theorem Step.nextId_le_single {s s' : ContractState} (hst : Step s s') :
    s.nextCertificateId ≤ s'.nextCertificateId := by
  cases hst with
  | issue H =>
      obtain ⟨-, -, -, -, -, -, rfl⟩ := issueCertificate_ok_inv H
      exact Nat.le_succ _
  | revoke H =>
      obtain ⟨-, -, -, -, rfl⟩ := revokeCertificate_ok_inv H
      exact le_rfl

theorem Steps.nextId_le {s s' : ContractState} (hst : Steps s s') :
    s.nextCertificateId ≤ s'.nextCertificateId := by
  induction hst with
  | refl => exact le_rfl
  | tail _ hstep ih => exact le_trans ih hstep.nextId_le_single

theorem Step.owner_eq {s s' : ContractState} (hst : Step s s') :
    s'.owner = s.owner := by
  cases hst with
  | issue H =>
      obtain ⟨-, -, -, -, -, -, rfl⟩ := issueCertificate_ok_inv H
      rfl
  | revoke H =>
      obtain ⟨-, -, -, -, rfl⟩ := revokeCertificate_ok_inv H
      rfl

/-- The registry invariant used below: the counter has been initialized
(≥ 1) and every id the hash index points to is below the counter. -/
def RegistryInv (s : ContractState) : Prop :=
  1 ≤ s.nextCertificateId ∧
  ∀ h : String, s.hashToCertificateId h < s.nextCertificateId

theorem registryInv_initial (deployer : String) :
    RegistryInv (initialState deployer) :=
  ⟨le_rfl, fun _ => Nat.zero_lt_one⟩

theorem registryInv_step {s s' : ContractState} (inv : RegistryInv s)
    (hst : Step s s') : RegistryInv s' := by
  cases hst with
  | issue H =>
      obtain ⟨-, -, -, -, -, -, rfl⟩ := issueCertificate_ok_inv H
      refine ⟨le_trans inv.1 (Nat.le_succ _), fun x => ?_⟩
      show (if x = _ then s.nextCertificateId else s.hashToCertificateId x) <
        s.nextCertificateId + 1
      split
      · exact Nat.lt_succ_self _
      · exact Nat.lt_succ_of_lt (inv.2 x)
  | revoke H =>
      obtain ⟨-, -, -, -, rfl⟩ := revokeCertificate_ok_inv H
      exact ⟨inv.1, inv.2⟩

theorem registryInv_of_reachable {s : ContractState} (hr : Reachable s) :
    RegistryInv s := by
  obtain ⟨d, hsteps⟩ := hr
  induction hsteps with
  | refl => exact registryInv_initial d
  | tail _ hstep ih => exact registryInv_step ih hstep

theorem runOps_nextId (ops : List Op) : ∀ s : ContractState,
    (runOps s ops).nextCertificateId =
      s.nextCertificateId + countSuccessfulIssues s ops := by
  induction ops with
  | nil => intro s; simp [runOps, countSuccessfulIssues]
  | cons op rest ih =>
      intro s
      cases op with
      | issue sender now p e h =>
          cases hI : issueCertificate s sender now p e h with
          | ok v =>
              obtain ⟨id, s₁⟩ := v
              have hnext : s₁.nextCertificateId = s.nextCertificateId + 1 := by
                obtain ⟨-, -, -, -, -, -, rfl⟩ := issueCertificate_ok_inv hI
                rfl
              simp only [runOps, countSuccessfulIssues, applyOp, applyIssue,
                hI, Except.isOk, Except.toBool, if_pos]
              rw [ih, hnext]
              omega
          | error err =>
              simp only [runOps, countSuccessfulIssues, applyOp, applyIssue,
                hI, Except.isOk, Except.toBool, Bool.false_eq_true, if_false]
              rw [ih]
              omega
      | revoke sender i =>
          cases hR : revokeCertificate s sender i with
          | ok s₁ =>
              have hnext : s₁.nextCertificateId = s.nextCertificateId := by
                obtain ⟨-, -, -, -, rfl⟩ := revokeCertificate_ok_inv hR
                rfl
              simp only [runOps, countSuccessfulIssues, applyOp, applyRevoke, hR]
              rw [ih, hnext]
              omega
          | error err =>
              simp only [runOps, countSuccessfulIssues, applyOp, applyRevoke, hR]
              rw [ih]
              omega

theorem Step.certificates_rel_single {s s' : ContractState} (hst : Step s s')
    (i : Nat) (hi : i < s.nextCertificateId) :
    s'.certificates i = s.certificates i ∨
    ((s.certificates i).isValid = true ∧
      s'.certificates i = { s.certificates i with isValid := false }) := by
  cases hst with
  | issue H =>
      obtain ⟨-, -, -, -, -, -, rfl⟩ := issueCertificate_ok_inv H
      left
      simp [Nat.ne_of_lt hi]
  | revoke H =>
      rename_i sender j
      obtain ⟨-, -, -, hv, rfl⟩ := revokeCertificate_ok_inv H
      by_cases hij : i = j
      · subst hij
        right
        exact ⟨hv, by simp⟩
      · left
        simp [hij]

theorem Steps.certificates_rel {s s' : ContractState} (hst : Steps s s') :
    ∀ i, i < s.nextCertificateId →
    s'.certificates i = s.certificates i ∨
    ((s.certificates i).isValid = true ∧
      s'.certificates i = { s.certificates i with isValid := false }) := by
  induction hst with
  | refl => exact fun i _ => Or.inl rfl
  | tail hs hstep ih =>
      intro i hi
      have hit := hstep.certificates_rel_single i (lt_of_lt_of_le hi hs.nextId_le)
      rcases ih i hi with h1 | ⟨hv, h1⟩
      · rw [h1] at hit
        exact hit
      · rw [h1] at hit
        rcases hit with h2 | ⟨hv2, -⟩
        · right
          exact ⟨hv, h2⟩
        · simp at hv2

theorem Steps.hashIndex_nonzero {s s' : ContractState} (hst : Steps s s') :
    ∀ h : String, s.hashToCertificateId h ≠ 0 →
      s'.hashToCertificateId h ≠ 0 := by
  induction hst with
  | refl => exact fun _ hnz => hnz
  | tail hs hstep ih =>
      intro h hnz
      have hmid := ih h hnz
      cases hstep with
      | issue H =>
          obtain ⟨-, -, -, -, hfresh, -, rfl⟩ := issueCertificate_ok_inv H
          dsimp only
          split
          · next heq => exact absurd hfresh (heq ▸ hmid)
          · exact hmid
      | revoke H =>
          obtain ⟨-, -, -, -, rfl⟩ := revokeCertificate_ok_inv H
          exact hmid

/-! ## Claim theorems -/

/-- C1: for every registry state (satisfying the registry's counter
invariant `1 ≤ nextCertificateId`, which holds in every reachable state)
and every owner call to `issueCertificate` with non-empty participant
name, event name and content hash where the hash is absent from the hash
index, the call succeeds and returns `id = nextCertificateId`; afterwards
`certificates[id]` holds exactly the given fields with `isValid = true`
and `timestamp = now`, the hash index maps the hash to `id`, the counter
is incremented by one, and `verifyCertificateByHash` on that hash returns
that record with the same fields. -/
theorem issue_success_spec (s : ContractState) (sender : String) (now : Nat)
    (p e h : String) (hs : sender = s.owner) (hp : p ≠ "") (he : e ≠ "")
    (hh : h ≠ "") (hfresh : s.hashToCertificateId h = 0)
    (hinit : 1 ≤ s.nextCertificateId) :
    ∃ s' : ContractState,
      issueCertificate s sender now p e h = .ok (s.nextCertificateId, s') ∧
      s'.certificates s.nextCertificateId =
        { participantName := p, eventName := e, certificateHash := h,
          timestamp := now, isValid := true } ∧
      s'.hashToCertificateId h = s.nextCertificateId ∧
      s'.nextCertificateId = s.nextCertificateId + 1 ∧
      verifyCertificateByHash s' h =
        { certExists := true, certificateId := s.nextCertificateId,
          participantName := p, eventName := e, timestamp := now,
          isValid := true } := by
  refine ⟨_, issueCertificate_eq_ok s sender now p e h hs hp he hh hfresh,
    by simp, by simp, rfl, ?_⟩
  have hne : s.nextCertificateId ≠ 0 := by omega
  simp [verifyCertificateByHash, hne]

/-- Witness for C1 at a concrete input. -/
theorem issue_success_spec_witness :
    ∃ s' : ContractState,
      issueCertificate (initialState "alice") "alice" 42
        "Alice" "Contest2024" "aaa111" = .ok (1, s') ∧
      s'.certificates 1 =
        { participantName := "Alice", eventName := "Contest2024",
          certificateHash := "aaa111", timestamp := 42, isValid := true } ∧
      s'.hashToCertificateId "aaa111" = 1 ∧
      s'.nextCertificateId = 2 ∧
      verifyCertificateByHash s' "aaa111" =
        { certExists := true, certificateId := 1,
          participantName := "Alice", eventName := "Contest2024",
          timestamp := 42, isValid := true } :=
  issue_success_spec (initialState "alice") "alice" 42
    "Alice" "Contest2024" "aaa111" rfl (by decide) (by decide) (by decide)
    rfl (by decide)

/-- C2: an owner call to `issueCertificate` fails with a validation error
(the spec's `ValidationError`) whenever the participant name, event name
or content hash is empty, and fails with `DuplicateHash` (the spec's
`DuplicateHashError`) whenever the hash is already present in the hash
index; in particular a second issuance with the same hash (by the owner,
with non-empty fields, from a state whose counter is initialized) fails
with `DuplicateHash` and leaves `getTotalCertificates` and the whole
state unchanged from after the first call, and no failed issuance ever
changes the state. -/
theorem issue_failure_spec :
    (∀ (s : ContractState) (sender : String) (now : Nat) (p e h : String),
      sender = s.owner → (p = "" ∨ e = "" ∨ h = "") →
      ∃ err : ContractError,
        issueCertificate s sender now p e h = .error err ∧
        err.isValidationError = true) ∧
    (∀ (s : ContractState) (sender : String) (now : Nat) (p e h : String),
      sender = s.owner → p ≠ "" → e ≠ "" → h ≠ "" →
      s.hashToCertificateId h ≠ 0 →
      issueCertificate s sender now p e h = .error .DuplicateHash) ∧
    (∀ (s : ContractState) (sender : String) (now : Nat) (p e h : String)
      (id : Nat) (s₁ : ContractState),
      1 ≤ s.nextCertificateId →
      issueCertificate s sender now p e h = .ok (id, s₁) →
      ∀ (now₂ : Nat) (p₂ e₂ : String), p₂ ≠ "" → e₂ ≠ "" →
        issueCertificate s₁ sender now₂ p₂ e₂ h = .error .DuplicateHash ∧
        applyIssue s₁ sender now₂ p₂ e₂ h = s₁ ∧
        getTotalCertificates (applyIssue s₁ sender now₂ p₂ e₂ h) =
          getTotalCertificates s₁) ∧
    (∀ (s : ContractState) (sender : String) (now : Nat) (p e h : String)
      (err : ContractError),
      issueCertificate s sender now p e h = .error err →
      applyIssue s sender now p e h = s) := by
  refine ⟨?_, ?_, ?_, ?_⟩
  · intro s sender now p e h hs hemp
    by_cases hp : p = ""
    · exact ⟨.EmptyParticipantName, by simp [issueCertificate, hs, hp], rfl⟩
    · by_cases he : e = ""
      · exact ⟨.EmptyEventName, by simp [issueCertificate, hs, hp, he], rfl⟩
      · have hh : h = "" := by tauto
        exact ⟨.EmptyCertificateHash,
          by simp [issueCertificate, hs, hp, he, hh], rfl⟩
  · intro s sender now p e h hs hp he hh hdup
    simp [issueCertificate, hs, hp, he, hh, hdup]
  · intro s sender now p e h id s₁ hinit H now₂ p₂ e₂ hp₂ he₂
    obtain ⟨hs, -, -, hh, -, -, hs₁⟩ := issueCertificate_ok_inv H
    have howner : s₁.owner = s.owner := by rw [hs₁]
    have hdup : s₁.hashToCertificateId h ≠ 0 := by
      rw [hs₁]
      show (if h = h then s.nextCertificateId else s.hashToCertificateId h) ≠ 0
      simp
      omega
    have herr : issueCertificate s₁ sender now₂ p₂ e₂ h =
        .error .DuplicateHash := by
      simp [issueCertificate, hs.trans howner.symm, hp₂, he₂, hh, hdup]
    exact ⟨herr, applyIssue_of_error herr, by rw [applyIssue_of_error herr]⟩
  · intro s sender now p e h err H
    exact applyIssue_of_error H

/-- Witness for C2 at concrete inputs: an empty participant name gives a
validation error, and re-issuing an already-issued hash gives a
duplicate-hash error leaving the total unchanged. -/
theorem issue_failure_spec_witness :
    (∃ err : ContractError,
      issueCertificate (initialState "o") "o" 0 "" "Event" "h1" =
        .error err ∧ err.isValidationError = true) ∧
    (issueCertificate (applyIssue (initialState "o") "o" 7 "Alice" "Event" "h1")
        "o" 9 "Bob" "Event" "h1" = .error .DuplicateHash ∧
      applyIssue (applyIssue (initialState "o") "o" 7 "Alice" "Event" "h1")
          "o" 9 "Bob" "Event" "h1" =
        applyIssue (initialState "o") "o" 7 "Alice" "Event" "h1" ∧
      getTotalCertificates
          (applyIssue (applyIssue (initialState "o") "o" 7 "Alice" "Event" "h1")
            "o" 9 "Bob" "Event" "h1") =
        getTotalCertificates
          (applyIssue (initialState "o") "o" 7 "Alice" "Event" "h1")) :=
  ⟨issue_failure_spec.1 (initialState "o") "o" 0 "" "Event" "h1" rfl
      (Or.inl rfl),
    issue_failure_spec.2.2.1 (initialState "o") "o" 7 "Alice" "Event" "h1" 1
      (applyIssue (initialState "o") "o" 7 "Alice" "Event" "h1")
      (by decide) (by rfl) 9 "Bob" "Event" (by decide) (by decide)⟩

/-- C3: for every caller whose identity differs from the owner identity
(exact match, no normalization), `issueCertificate` and
`revokeCertificate` fail with `Unauthorized` — regardless of the other
arguments, so the check precedes validation and every mutation — and the
resulting state of either transaction is exactly the pre-state: records,
hash index, counter and every record's `isValid` are unchanged. -/
theorem unauthorized_no_mutation (s : ContractState) (sender : String)
    (now : Nat) (p e h : String) (i : Nat) (hs : sender ≠ s.owner) :
    issueCertificate s sender now p e h = .error .Unauthorized ∧
    revokeCertificate s sender i = .error .Unauthorized ∧
    applyIssue s sender now p e h = s ∧
    applyRevoke s sender i = s := by
  have hI : issueCertificate s sender now p e h = .error .Unauthorized := by
    simp [issueCertificate, hs]
  have hR : revokeCertificate s sender i = .error .Unauthorized := by
    simp [revokeCertificate, hs]
  exact ⟨hI, hR, applyIssue_of_error hI, applyRevoke_of_error hR⟩

/-- Witness for C3 at a concrete input: a non-owner caller can neither
issue nor revoke, and the state is untouched. -/
theorem unauthorized_no_mutation_witness :
    issueCertificate (initialState "owner") "mallory" 3 "A" "E" "h1" =
      .error .Unauthorized ∧
    revokeCertificate (initialState "owner") "mallory" 1 =
      .error .Unauthorized ∧
    applyIssue (initialState "owner") "mallory" 3 "A" "E" "h1" =
      initialState "owner" ∧
    applyRevoke (initialState "owner") "mallory" 1 = initialState "owner" :=
  unauthorized_no_mutation (initialState "owner") "mallory" 3 "A" "E" "h1" 1
    (by decide)

/-- C4: an owner call to `revokeCertificate i` fails with
`InvalidCertificateId` (the spec's `NotFoundError`) when `i` is outside
the valid range `1 ≤ i < nextCertificateId`, fails with `AlreadyRevoked`
when the record's `isValid` is already false (leaving it false), and on a
valid record succeeds, setting `isValid` to false; revoking the same id a
second time fails with `AlreadyRevoked` (idempotent-failure), so the
transition is irreversible. -/
theorem revoke_spec (s : ContractState) (sender : String) (i : Nat)
    (hs : sender = s.owner) :
    ((i = 0 ∨ i ≥ s.nextCertificateId) →
      revokeCertificate s sender i = .error .InvalidCertificateId ∧
      applyRevoke s sender i = s) ∧
    (0 < i → i < s.nextCertificateId → (s.certificates i).isValid = false →
      revokeCertificate s sender i = .error .AlreadyRevoked ∧
      ((applyRevoke s sender i).certificates i).isValid = false) ∧
    (0 < i → i < s.nextCertificateId → (s.certificates i).isValid = true →
      ∃ s' : ContractState,
        revokeCertificate s sender i = .ok s' ∧
        (s'.certificates i).isValid = false ∧
        revokeCertificate s' sender i = .error .AlreadyRevoked) := by
  refine ⟨?_, ?_, ?_⟩
  · intro hrange
    have hno : ¬(i > 0 ∧ i < s.nextCertificateId) := by omega
    have herr : revokeCertificate s sender i = .error .InvalidCertificateId := by
      simp [revokeCertificate, hs, hno]
    exact ⟨herr, applyRevoke_of_error herr⟩
  · intro h1 h2 hv
    have herr : revokeCertificate s sender i = .error .AlreadyRevoked := by
      simp [revokeCertificate, hs, h1, h2, hv]
    exact ⟨herr, by rw [applyRevoke_of_error herr]; exact hv⟩
  · intro h1 h2 hv
    refine ⟨_, revokeCertificate_eq_ok s sender i hs h1 h2 hv, by simp, ?_⟩
    have hv' : ((fun j => if j = i
        then { s.certificates i with isValid := false }
        else s.certificates j) i).isValid = false := by simp
    simp [revokeCertificate, hs, h1, h2, hv']

/-- Witness for C4 at concrete inputs: after issuing certificate 1,
revoking id 0 is not found, revoking id 1 succeeds and flips `isValid`,
and a second revocation of id 1 fails as already revoked. -/
theorem revoke_spec_witness :
    (revokeCertificate (applyIssue (initialState "o") "o" 7 "A" "E" "h1")
        "o" 0 = .error .InvalidCertificateId ∧
      applyRevoke (applyIssue (initialState "o") "o" 7 "A" "E" "h1") "o" 0 =
        applyIssue (initialState "o") "o" 7 "A" "E" "h1") ∧
    ∃ s' : ContractState,
      revokeCertificate (applyIssue (initialState "o") "o" 7 "A" "E" "h1")
          "o" 1 = .ok s' ∧
      (s'.certificates 1).isValid = false ∧
      revokeCertificate s' "o" 1 = .error .AlreadyRevoked :=
  ⟨(revoke_spec (applyIssue (initialState "o") "o" 7 "A" "E" "h1") "o" 0
      (by rfl)).1 (Or.inl rfl),
    (revoke_spec (applyIssue (initialState "o") "o" 7 "A" "E" "h1") "o" 1
      (by rfl)).2.2 (by decide) (by decide) (by decide)⟩

/-- C5: `verifyCertificateById` is a total function (the Solidity view
function has no `require`, so it never throws): it returns the stored
record exactly when `1 ≤ i < nextCertificateId`, and the all-zero
not-found result for every other id, including 0 and every
`i ≥ nextCertificateId`. -/
theorem lookupById_total_spec (s : ContractState) (i : Nat) :
    (1 ≤ i → i < s.nextCertificateId →
      verifyCertificateById s i =
        { certExists := true,
          participantName := (s.certificates i).participantName,
          eventName := (s.certificates i).eventName,
          certificateHash := (s.certificates i).certificateHash,
          timestamp := (s.certificates i).timestamp,
          isValid := (s.certificates i).isValid }) ∧
    ((i = 0 ∨ i ≥ s.nextCertificateId) →
      verifyCertificateById s i =
        { certExists := false, participantName := "", eventName := "",
          certificateHash := "", timestamp := 0, isValid := false }) := by
  constructor
  · intro h1 h2
    have hno : ¬(i = 0 ∨ i ≥ s.nextCertificateId) := by omega
    simp [verifyCertificateById, hno]
  · intro hr
    unfold verifyCertificateById
    rw [if_pos hr]

/-- Witness for C5 at concrete inputs: with one certificate issued,
id 1 is found with its stored fields, id 0 and id 2 are not found. -/
theorem lookupById_total_spec_witness :
    verifyCertificateById (applyIssue (initialState "o") "o" 7 "A" "E" "h1") 1 =
      { certExists := true, participantName := "A", eventName := "E",
        certificateHash := "h1", timestamp := 7, isValid := true } ∧
    verifyCertificateById (applyIssue (initialState "o") "o" 7 "A" "E" "h1") 0 =
      { certExists := false, participantName := "", eventName := "",
        certificateHash := "", timestamp := 0, isValid := false } ∧
    verifyCertificateById (applyIssue (initialState "o") "o" 7 "A" "E" "h1") 2 =
      { certExists := false, participantName := "", eventName := "",
        certificateHash := "", timestamp := 0, isValid := false } :=
  ⟨(lookupById_total_spec (applyIssue (initialState "o") "o" 7 "A" "E" "h1") 1).1
      (by decide) (by decide),
    (lookupById_total_spec (applyIssue (initialState "o") "o" 7 "A" "E" "h1") 0).2
      (Or.inl rfl),
    (lookupById_total_spec (applyIssue (initialState "o") "o" 7 "A" "E" "h1") 2).2
      (Or.inr (by decide))⟩

/-- C6: `verifyCertificateByHash` is a total function (never fails), and
the API's verification outcome is exactly one of three mutually exclusive
cases: hash absent from the index → not-found; present with `isValid`
false → known-but-revoked; present with `isValid` true → valid. -/
theorem lookupByHash_three_way (s : ContractState) (hash : String) :
    (s.hashToCertificateId hash = 0 →
      verifyCertificateByHash s hash =
        { certExists := false, certificateId := 0, participantName := "",
          eventName := "", timestamp := 0, isValid := false } ∧
      verifyOutcomeByHash s hash = .notFound) ∧
    (s.hashToCertificateId hash ≠ 0 →
      verifyCertificateByHash s hash =
        { certExists := true, certificateId := s.hashToCertificateId hash,
          participantName :=
            (s.certificates (s.hashToCertificateId hash)).participantName,
          eventName :=
            (s.certificates (s.hashToCertificateId hash)).eventName,
          timestamp :=
            (s.certificates (s.hashToCertificateId hash)).timestamp,
          isValid :=
            (s.certificates (s.hashToCertificateId hash)).isValid } ∧
      ((s.certificates (s.hashToCertificateId hash)).isValid = true →
        verifyOutcomeByHash s hash = .valid) ∧
      ((s.certificates (s.hashToCertificateId hash)).isValid = false →
        verifyOutcomeByHash s hash = .revoked)) ∧
    (verifyOutcomeByHash s hash = .notFound ∨
      verifyOutcomeByHash s hash = .revoked ∨
      verifyOutcomeByHash s hash = .valid) := by
  refine ⟨?_, ?_, ?_⟩
  · intro h0
    exact ⟨by simp [verifyCertificateByHash, h0],
      by simp [verifyOutcomeByHash, verifyCertificateByHash, h0]⟩
  · intro hnz
    refine ⟨by simp [verifyCertificateByHash, hnz], ?_, ?_⟩
    · intro hv
      simp [verifyOutcomeByHash, verifyCertificateByHash, hnz, hv]
    · intro hv
      simp [verifyOutcomeByHash, verifyCertificateByHash, hnz, hv]
  · cases hout : verifyOutcomeByHash s hash
    · exact Or.inl rfl
    · exact Or.inr (Or.inl rfl)
    · exact Or.inr (Or.inr rfl)

/-- Witness for C6 at concrete inputs: an unknown hash is not found, the
issued hash verifies as valid, and after revocation the same hash
verifies as known-but-revoked. -/
theorem lookupByHash_three_way_witness :
    (verifyCertificateByHash (applyIssue (initialState "o") "o" 7 "A" "E" "h1")
        "zzz" =
      { certExists := false, certificateId := 0, participantName := "",
        eventName := "", timestamp := 0, isValid := false } ∧
      verifyOutcomeByHash (applyIssue (initialState "o") "o" 7 "A" "E" "h1")
        "zzz" = .notFound) ∧
    verifyOutcomeByHash (applyIssue (initialState "o") "o" 7 "A" "E" "h1")
      "h1" = .valid ∧
    verifyOutcomeByHash
      (applyRevoke (applyIssue (initialState "o") "o" 7 "A" "E" "h1") "o" 1)
      "h1" = .revoked :=
  ⟨(lookupByHash_three_way (applyIssue (initialState "o") "o" 7 "A" "E" "h1")
      "zzz").1 rfl,
    ((lookupByHash_three_way (applyIssue (initialState "o") "o" 7 "A" "E" "h1")
      "h1").2.1 (by decide)).2.1 (by decide),
    ((lookupByHash_three_way
      (applyRevoke (applyIssue (initialState "o") "o" 7 "A" "E" "h1") "o" 1)
      "h1").2.1 (by decide)).2.2 (by decide)⟩

/-- C7: `getTotalCertificates` returns `nextCertificateId - 1` in every
state; on every transaction sequence run from deployment it equals the
number of successful `issueCertificate` calls performed; and a
`revokeCertificate` transaction (successful or not) never changes it. -/
theorem getTotal_spec :
    (∀ s : ContractState, getTotalCertificates s = s.nextCertificateId - 1) ∧
    (∀ (d : String) (ops : List Op),
      getTotalCertificates (runOps (initialState d) ops) =
        countSuccessfulIssues (initialState d) ops) ∧
    (∀ (s : ContractState) (sender : String) (i : Nat),
      getTotalCertificates (applyRevoke s sender i) =
        getTotalCertificates s) := by
  refine ⟨fun _ => rfl, ?_, ?_⟩
  · intro d ops
    unfold getTotalCertificates
    rw [runOps_nextId ops (initialState d)]
    show 1 + countSuccessfulIssues (initialState d) ops - 1 = _
    omega
  · intro s sender i
    cases hR : revokeCertificate s sender i with
    | ok s₁ =>
        obtain ⟨-, -, -, -, rfl⟩ := revokeCertificate_ok_inv hR
        simp [applyRevoke, hR, getTotalCertificates]
    | error err =>
        rw [applyRevoke_of_error hR]

/-- C8: the id counter starts at 1, each successful issuance returns
`id = nextCertificateId` and increments the counter by exactly one, a
successful revocation leaves the counter unchanged, every reachable
state has `1 ≤ nextCertificateId` with every id in the hash index below
the counter, id 0 is never allocated from a reachable state, the counter
never decreases across transactions, and any issuance performed after an
earlier one returns a strictly larger id — so ids are sequential and
never reused, even after revocation. -/
theorem nextId_allocation_spec :
    (∀ d : String, (initialState d).nextCertificateId = 1) ∧
    (∀ (s : ContractState) (sender : String) (now : Nat) (p e h : String)
      (id : Nat) (s' : ContractState),
      issueCertificate s sender now p e h = .ok (id, s') →
      id = s.nextCertificateId ∧
      s'.nextCertificateId = s.nextCertificateId + 1) ∧
    (∀ (s : ContractState) (sender : String) (i : Nat) (s' : ContractState),
      revokeCertificate s sender i = .ok s' →
      s'.nextCertificateId = s.nextCertificateId) ∧
    (∀ s : ContractState, Reachable s →
      1 ≤ s.nextCertificateId ∧
      ∀ h : String, s.hashToCertificateId h < s.nextCertificateId) ∧
    (∀ s : ContractState, Reachable s →
      ∀ (sender : String) (now : Nat) (p e h : String) (id : Nat)
        (s' : ContractState),
        issueCertificate s sender now p e h = .ok (id, s') → id ≠ 0) ∧
    (∀ s s' : ContractState, Steps s s' →
      s.nextCertificateId ≤ s'.nextCertificateId) ∧
    (∀ (s s₁ t t' : ContractState) (sender sender' : String)
      (now now' : Nat) (p e h p' e' h' : String) (id id' : Nat),
      issueCertificate s sender now p e h = .ok (id, s₁) →
      Steps s₁ t →
      issueCertificate t sender' now' p' e' h' = .ok (id', t') →
      id < id') := by
  refine ⟨fun _ => rfl, ?_, ?_, ?_, ?_, ?_, ?_⟩
  · intro s sender now p e h id s' H
    obtain ⟨-, -, -, -, -, hid, rfl⟩ := issueCertificate_ok_inv H
    exact ⟨hid, rfl⟩
  · intro s sender i s' H
    obtain ⟨-, -, -, -, rfl⟩ := revokeCertificate_ok_inv H
    rfl
  · intro s hr
    exact registryInv_of_reachable hr
  · intro s hr sender now p e h id s' H
    obtain ⟨-, -, -, -, -, hid, -⟩ := issueCertificate_ok_inv H
    have h1 := (registryInv_of_reachable hr).1
    omega
  · intro s s' hst
    exact hst.nextId_le
  · intro s s₁ t t' sender sender' now now' p e h p' e' h' id id' H1 hst H2
    obtain ⟨-, -, -, -, -, hid1, rfl⟩ := issueCertificate_ok_inv H1
    obtain ⟨-, -, -, -, -, hid2, -⟩ := issueCertificate_ok_inv H2
    have hle := hst.nextId_le
    have : s.nextCertificateId + 1 ≤ t.nextCertificateId := hle
    omega

/-- Witness for C8 at concrete inputs: the first issuance from a fresh
deployment returns id 1 and bumps the counter to 2; the deployment state
is reachable with an initialized counter and empty hash index; a second
issuance returns the strictly larger id 2. -/
theorem nextId_allocation_spec_witness :
    ((1 : Nat) = 1 ∧
      (applyIssue (initialState "o") "o" 7 "A" "E" "h1").nextCertificateId
        = 2) ∧
    1 ≤ (initialState "o").nextCertificateId ∧
    (initialState "o").hashToCertificateId "x" <
      (initialState "o").nextCertificateId ∧
    (1 : Nat) < 2 :=
  ⟨nextId_allocation_spec.2.1 (initialState "o") "o" 7 "A" "E" "h1" 1
      (applyIssue (initialState "o") "o" 7 "A" "E" "h1") (by rfl),
    (nextId_allocation_spec.2.2.2.1 (initialState "o")
      ⟨"o", Steps.refl _⟩).1,
    (nextId_allocation_spec.2.2.2.1 (initialState "o")
      ⟨"o", Steps.refl _⟩).2 "x",
    nextId_allocation_spec.2.2.2.2.2.2 (initialState "o")
      (applyIssue (initialState "o") "o" 7 "A" "E" "h1")
      (applyIssue (initialState "o") "o" 7 "A" "E" "h1")
      (applyIssue (applyIssue (initialState "o") "o" 7 "A" "E" "h1")
        "o" 9 "B" "E" "h2")
      "o" "o" 7 9 "A" "E" "h1" "B" "E" "h2" 1 2
      (by rfl) (Steps.refl _) (by rfl)⟩

/-- C9: a record is created with `isValid = true`; a successful issuance
writes only the fresh id and a successful revocation rewrites only the
revoked id (flipping a true `isValid` to false), so across any single
transaction an existing record is either unchanged or has a true
`isValid` flipped to false, and across any transaction sequence every
existing record keeps its four immutable fields, is never deleted, and
its `isValid` never goes back from false to true. -/
theorem isValid_monotonic_spec :
    (∀ (s : ContractState) (sender : String) (now : Nat) (p e h : String)
      (id : Nat) (s' : ContractState),
      issueCertificate s sender now p e h = .ok (id, s') →
      (s'.certificates id).isValid = true ∧
      ∀ i : Nat, i ≠ id → s'.certificates i = s.certificates i) ∧
    (∀ (s : ContractState) (sender : String) (i : Nat) (s' : ContractState),
      revokeCertificate s sender i = .ok s' →
      s'.certificates i = { s.certificates i with isValid := false } ∧
      ∀ j : Nat, j ≠ i → s'.certificates j = s.certificates j) ∧
    (∀ s s' : ContractState, Step s s' →
      ∀ i : Nat, i < s.nextCertificateId →
      s'.certificates i = s.certificates i ∨
      ((s.certificates i).isValid = true ∧
        s'.certificates i = { s.certificates i with isValid := false })) ∧
    (∀ s s' : ContractState, Steps s s' →
      ∀ i : Nat, i < s.nextCertificateId →
      (s'.certificates i).participantName =
        (s.certificates i).participantName ∧
      (s'.certificates i).eventName = (s.certificates i).eventName ∧
      (s'.certificates i).certificateHash =
        (s.certificates i).certificateHash ∧
      (s'.certificates i).timestamp = (s.certificates i).timestamp ∧
      ((s.certificates i).isValid = false →
        (s'.certificates i).isValid = false)) := by
  refine ⟨?_, ?_, ?_, ?_⟩
  · intro s sender now p e h id s' H
    obtain ⟨-, -, -, -, -, hid, rfl⟩ := issueCertificate_ok_inv H
    subst hid
    constructor
    · simp
    · intro i hi
      simp [hi]
  · intro s sender i s' H
    obtain ⟨-, -, -, -, rfl⟩ := revokeCertificate_ok_inv H
    constructor
    · simp
    · intro j hj
      simp [hj]
  · intro s s' hst i hi
    exact hst.certificates_rel_single i hi
  · intro s s' hst i hi
    rcases hst.certificates_rel i hi with h1 | ⟨hv, h1⟩
    · rw [h1]
      exact ⟨rfl, rfl, rfl, rfl, fun hf => hf⟩
    · rw [h1]
      exact ⟨rfl, rfl, rfl, rfl, fun _ => rfl⟩

/-- Witness for C9 at concrete inputs: the issued record is valid; a
revocation rewrites exactly the revoked record; the step relation either
preserves or invalidates record 1; and a (trivial) sequence from the
revoked state keeps record 1 invalid. -/
theorem isValid_monotonic_spec_witness :
    ((applyIssue (initialState "o") "o" 7 "A" "E" "h1").certificates 1).isValid
      = true ∧
    (applyRevoke (applyIssue (initialState "o") "o" 7 "A" "E" "h1") "o" 1).certificates
        1 =
      { (applyIssue (initialState "o") "o" 7 "A" "E" "h1").certificates 1 with
        isValid := false } ∧
    ((applyRevoke (applyIssue (initialState "o") "o" 7 "A" "E" "h1") "o" 1).certificates
          1 =
        (applyIssue (initialState "o") "o" 7 "A" "E" "h1").certificates 1 ∨
      (((applyIssue (initialState "o") "o" 7 "A" "E" "h1").certificates 1).isValid
          = true ∧
        (applyRevoke (applyIssue (initialState "o") "o" 7 "A" "E" "h1") "o"
              1).certificates 1 =
          { (applyIssue (initialState "o") "o" 7 "A" "E" "h1").certificates 1 with
            isValid := false })) ∧
    ((applyRevoke (applyIssue (initialState "o") "o" 7 "A" "E" "h1") "o" 1).certificates
        1).isValid = false :=
  ⟨(isValid_monotonic_spec.1 (initialState "o") "o" 7 "A" "E" "h1" 1
      (applyIssue (initialState "o") "o" 7 "A" "E" "h1") (by rfl)).1,
    (isValid_monotonic_spec.2.1
      (applyIssue (initialState "o") "o" 7 "A" "E" "h1") "o" 1
      (applyRevoke (applyIssue (initialState "o") "o" 7 "A" "E" "h1") "o" 1)
      (by rfl)).1,
    isValid_monotonic_spec.2.2.1
      (applyIssue (initialState "o") "o" 7 "A" "E" "h1")
      (applyRevoke (applyIssue (initialState "o") "o" 7 "A" "E" "h1") "o" 1)
      (@Step.revoke _ "o" 1 _ (by rfl)) 1 (by decide),
    (isValid_monotonic_spec.2.2.2
      (applyRevoke (applyIssue (initialState "o") "o" 7 "A" "E" "h1") "o" 1)
      (applyRevoke (applyIssue (initialState "o") "o" 7 "A" "E" "h1") "o" 1)
      (Steps.refl _) 1 (by decide)).2.2.2.2 (by decide)⟩

/-- C10: a successful revocation leaves the hash index pointwise
unchanged, a hash once present in the index stays present across any
transaction sequence, issuing again with the hash of a revoked
certificate fails with `DuplicateHash`, and from any reachable state a
hash that was once successfully issued can never be issued again — a
content hash is registered at most once in the registry's lifetime. -/
theorem hash_never_freed_spec :
    (∀ (s : ContractState) (sender : String) (i : Nat) (s' : ContractState),
      revokeCertificate s sender i = .ok s' →
      s'.hashToCertificateId = s.hashToCertificateId) ∧
    (∀ s s' : ContractState, Steps s s' → ∀ h : String,
      s.hashToCertificateId h ≠ 0 → s'.hashToCertificateId h ≠ 0) ∧
    (∀ (s : ContractState) (sender : String) (i : Nat) (s' : ContractState),
      revokeCertificate s sender i = .ok s' →
      ∀ (sender₂ : String) (now : Nat) (p e h : String),
        sender₂ = s.owner → p ≠ "" → e ≠ "" → h ≠ "" →
        s.hashToCertificateId h ≠ 0 →
        issueCertificate s' sender₂ now p e h = .error .DuplicateHash) ∧
    (∀ (s s₁ t : ContractState) (sender : String) (now : Nat)
      (p e h : String) (id : Nat),
      Reachable s →
      issueCertificate s sender now p e h = .ok (id, s₁) →
      Steps s₁ t →
      ∀ (sender' : String) (now' : Nat) (p' e' : String),
        (issueCertificate t sender' now' p' e' h).isOk = false) := by
  refine ⟨?_, ?_, ?_, ?_⟩
  · intro s sender i s' H
    obtain ⟨-, -, -, -, rfl⟩ := revokeCertificate_ok_inv H
    rfl
  · intro s s' hst
    exact hst.hashIndex_nonzero
  · intro s sender i s' H sender₂ now p e h hs₂ hp he hh hdup
    obtain ⟨-, -, -, -, rfl⟩ := revokeCertificate_ok_inv H
    simp only [issueCertificate]
    rw [if_neg (by simpa using hs₂), if_neg hp, if_neg he, if_neg hh,
      if_pos (by simpa using hdup)]
  · intro s s₁ t sender now p e h id hr H hst sender' now' p' e'
    obtain ⟨-, -, -, -, -, -, rfl⟩ := issueCertificate_ok_inv H
    have h1 := (registryInv_of_reachable hr).1
    have hnz : (if h = h then s.nextCertificateId
        else s.hashToCertificateId h) ≠ 0 := by
      simp
      omega
    have hne := hst.hashIndex_nonzero h hnz
    cases hI : issueCertificate t sender' now' p' e' h with
    | ok v =>
        obtain ⟨id', t'⟩ := v
        obtain ⟨-, -, -, -, hfresh, -, -⟩ := issueCertificate_ok_inv hI
        exact absurd hfresh hne
    | error err => rfl

/-- Witness for C10 at concrete inputs: revoking certificate 1 keeps the
hash index intact, its hash stays registered, and re-issuing the revoked
hash fails with a duplicate-hash error and can never succeed again. -/
theorem hash_never_freed_spec_witness :
    (applyRevoke (applyIssue (initialState "o") "o" 7 "A" "E" "h1") "o"
        1).hashToCertificateId =
      (applyIssue (initialState "o") "o" 7 "A" "E" "h1").hashToCertificateId ∧
    (applyRevoke (applyIssue (initialState "o") "o" 7 "A" "E" "h1") "o"
        1).hashToCertificateId "h1" ≠ 0 ∧
    issueCertificate
        (applyRevoke (applyIssue (initialState "o") "o" 7 "A" "E" "h1") "o" 1)
        "o" 9 "B" "E2" "h1" = .error .DuplicateHash ∧
    (issueCertificate
        (applyRevoke (applyIssue (initialState "o") "o" 7 "A" "E" "h1") "o" 1)
        "o" 9 "B" "E2" "h1").isOk = false :=
  ⟨hash_never_freed_spec.1
      (applyIssue (initialState "o") "o" 7 "A" "E" "h1") "o" 1
      (applyRevoke (applyIssue (initialState "o") "o" 7 "A" "E" "h1") "o" 1)
      (by rfl),
    hash_never_freed_spec.2.1
      (applyIssue (initialState "o") "o" 7 "A" "E" "h1")
      (applyRevoke (applyIssue (initialState "o") "o" 7 "A" "E" "h1") "o" 1)
      (Steps.tail (Steps.refl _) (@Step.revoke _ "o" 1 _ (by rfl))) "h1" (by decide),
    hash_never_freed_spec.2.2.1
      (applyIssue (initialState "o") "o" 7 "A" "E" "h1") "o" 1
      (applyRevoke (applyIssue (initialState "o") "o" 7 "A" "E" "h1") "o" 1)
      (by rfl) "o" 9 "B" "E2" "h1" (by rfl) (by decide) (by decide)
      (by decide) (by decide),
    hash_never_freed_spec.2.2.2
      (initialState "o")
      (applyIssue (initialState "o") "o" 7 "A" "E" "h1")
      (applyRevoke (applyIssue (initialState "o") "o" 7 "A" "E" "h1") "o" 1)
      "o" 7 "A" "E" "h1" 1 ⟨"o", Steps.refl _⟩ (by rfl)
      (Steps.tail (Steps.refl _) (@Step.revoke _ "o" 1 _ (by rfl))) "o" 9 "B" "E2"⟩
